import Mathlib

/-!
Verification of the trading decision engine (`files/` package).

Python floats are modelled as rationals; a nullable or possibly-NaN float
is modelled as `Option ℚ` with `none` standing for "None or NaN" (the code
treats both the same way in every place modelled here, via the `x == x`
NaN test next to each `is None` test).  Timestamps are `Int` milliseconds.
Python dicts keyed by strings or ints are association lists with
`List.lookup` semantics.
-/

namespace Trade

/-- `files/core/types.py` `MarketState`.  `trend` is one of "up", "down",
"flat"; `volatility` one of "low", "normal", "high". -/
structure MarketState where
  tradable : Bool
  trend : String
  volatility : String
  cadence_ok : Bool
  has_enough_bars : Bool
  reason : Option String
deriving DecidableEq

/-- `files/core/types.py` `EntrySignal`. -/
structure EntrySignal where
  should_enter : Bool
  side : String
  confidence : ℚ
  reason : Option String
deriving DecidableEq

/-- `files/core/types.py` `ExitSignal`. -/
structure ExitSignal where
  should_exit : Bool
  reason : Option String
deriving DecidableEq

/-- `files/core/types.py` `Position`. -/
structure Position where
  symbol : String
  qty : ℚ
  side : String
  entry_price : ℚ
  entry_ts_ms : Option Int
  stop_price : Option ℚ
  trailing_anchor_price : Option ℚ
deriving DecidableEq

/-- Python `a or b` on an optional string: `None` and `""` both fall back. -/
def reason_or (r : Option String) (d : String) : String :=
  match r with
  | none => d
  | some s => if s = "" then d else s

/-! ## Rule engine: `files/strategy/rules.py` -/

/-- `rules.py` line 8. -/
def CONFIDENCE_ENTER : ℚ := 60 / 100

/-- `rules.py` line 11. -/
def ATR_MULT : ℚ := 2

/-- `rules.py` line 12. -/
def TRAIL_ATR_MULT : ℚ := 2

/-- `rules.py` line 13. -/
def MAX_HOLD_BARS : Int := 24

/-- The LONG trailing anchor of `compute_trailing_stop_update`
(`rules.py` line 96): running max of the previous anchor (when valid)
and the current favorable extreme `hi`. -/
def long_anchor (prev_anchor : Option ℚ) (hi : ℚ) : ℚ :=
  match prev_anchor with
  | none => hi
  | some pa => max pa hi

/-- The SHORT trailing anchor (`rules.py` line 106): running min. -/
def short_anchor (prev_anchor : Option ℚ) (lo : ℚ) : ℚ :=
  match prev_anchor with
  | none => lo
  | some pa => min pa lo

/-- `rules.py` lines 47-113, `compute_trailing_stop_update`.
Returns (new stop or None, new anchor or None, reason).
`latest_close`, `atr`, `atr_mult` are `none` when NaN (the code's
`x == x` checks); `latest_high`/`latest_low` are `none` when absent or
NaN, in which case the close is used as the extreme. -/
def compute_trailing_stop_update (position : Position) (latest_close : Option ℚ)
    (latest_high latest_low : Option ℚ) (atr : Option ℚ) (atr_mult : Option ℚ) :
    Option ℚ × Option ℚ × String :=
  match latest_close with
  | none => (none, position.trailing_anchor_price, "close_nan")
  | some close =>
    match atr with
    | none => (none, position.trailing_anchor_price, "atr_missing_or_nonpositive")
    | some a =>
      if a ≤ 0 then (none, position.trailing_anchor_price, "atr_missing_or_nonpositive")
      else
        match atr_mult with
        | none => (none, position.trailing_anchor_price, "atr_mult_nonpositive")
        | some m =>
          if m ≤ 0 then (none, position.trailing_anchor_price, "atr_mult_nonpositive")
          else
            let hi := latest_high.getD close
            let lo := latest_low.getD close
            if position.side = "LONG" then
              let anchor := long_anchor position.trailing_anchor_price hi
              let candidate := anchor - m * a
              if candidate ≤ 0 then (none, some anchor, "candidate_invalid")
              else
                match position.stop_price with
                | none => (some candidate, some anchor, "init_stop")
                | some ps => (some (max ps candidate), some anchor, "ratchet")
            else
              let anchor := short_anchor position.trailing_anchor_price lo
              let candidate := anchor + m * a
              if candidate ≤ 0 then (none, some anchor, "candidate_invalid")
              else
                match position.stop_price with
                | none => (some candidate, some anchor, "init_stop")
                | some ps => (some (min ps candidate), some anchor, "ratchet")

/-- `rules.py` lines 116-173, `evaluate_entry`.  `confidence` is the value
of `_model.predict_confidence(features)` (`none` = NaN); `force_side` is
the stripped, upper-cased `FORCE_SIDE` environment variable (empty when
unset). -/
def evaluate_entry (market_state : MarketState) (confidence : Option ℚ)
    (force_side : String) : EntrySignal :=
  if !market_state.tradable then
    { should_enter := false, side := "LONG", confidence := 0,
      reason := some (reason_or market_state.reason "not_tradable") }
  else
    match confidence with
    | none => { should_enter := false, side := "LONG", confidence := 0,
                reason := some "confidence_nan" }
    | some conf =>
      if force_side = "LONG" ∨ force_side = "SHORT" then
        if CONFIDENCE_ENTER ≤ conf then
          { should_enter := true, side := force_side, confidence := conf,
            reason := some (if force_side = "LONG" then "forced_long" else "forced_short") }
        else
          { should_enter := false, side := force_side, confidence := conf,
            reason := some (if force_side = "LONG" then "forced_long_but_low_confidence"
                            else "forced_short_but_low_confidence") }
      else if market_state.trend = "up" ∧ CONFIDENCE_ENTER ≤ conf then
        { should_enter := true, side := "LONG", confidence := conf,
          reason := some "trend_up_and_confident" }
      else if market_state.trend = "down" ∧ CONFIDENCE_ENTER ≤ conf then
        { should_enter := true, side := "SHORT", confidence := conf,
          reason := some "trend_down_and_confident" }
      else
        { should_enter := false, side := "LONG", confidence := conf,
          reason := some "not_confident_or_flat_trend" }

/-- `rules.py` lines 176-180, `_bars_held`: floor of the non-negative
elapsed milliseconds over the bar step in milliseconds. -/
def bars_held (entry_ts_ms now_ts_ms expected_step_s : Int) : Int :=
  if expected_step_s ≤ 0 then 0
  else (((max (now_ts_ms - entry_ts_ms) 0).toNat / (expected_step_s * 1000).toNat : Nat) : Int)

/-- The stop-breach test of `evaluate_exit` (`rules.py` lines 212-217),
given the (non-NaN) stop `sp` and the bar close. -/
def stop_breached (side : String) (sp close : ℚ) : Bool :=
  if side = "LONG" ∧ close ≤ sp then true
  else if side = "SHORT" ∧ sp ≤ close then true
  else false

/-- `rules.py` lines 183-229, `evaluate_exit`.  `row_close` is the row's
close (`none` when missing); `row_ts_ms` is the parsed row timestamp in
ms (the code falls back to 0 when it cannot be parsed). -/
def evaluate_exit (position : Position) (row_close : Option ℚ) (row_ts_ms : Int)
    (market_state : MarketState) (expected_step_s : Int) : ExitSignal :=
  if !market_state.tradable then
    { should_exit := true, reason := some (reason_or market_state.reason "not_tradable") }
  else
    match row_close with
    | none => { should_exit := false, reason := some "missing_close" }
    | some close =>
      let now_ts_ms := row_ts_ms
      let same_bar_as_entry : Bool :=
        match position.entry_ts_ms with
        | some e => decide (0 < now_ts_ms) && decide (e = now_ts_ms)
        | none => false
      let stop_exit : Bool :=
        if same_bar_as_entry then false
        else
          match position.stop_price with
          | some sp => stop_breached position.side sp close
          | none => false
      if stop_exit then { should_exit := true, reason := some "stop_hit" }
      else
        match position.entry_ts_ms with
        | some e =>
          if MAX_HOLD_BARS ≤ bars_held e now_ts_ms expected_step_s then
            { should_exit := true, reason := some "time_stop" }
          else { should_exit := false, reason := none }
        | none => { should_exit := false, reason := none }

/-! ## Paper broker: `files/broker/paper.py` -/

/-- The mutable state of a `PaperBroker`: `_tracked`, `_last_exit_ts_ms`
(dicts, as association lists with first-match lookup), the fee/slippage
configuration and the running realized-PnL totals. -/
structure BrokerState where
  tracked : List (String × Position)
  last_exit_ts_ms : List (String × Int)
  fee_bps : ℚ
  slippage_bps : ℚ
  realized_pnl_usd_total : ℚ
  trades_closed : Nat
deriving DecidableEq

/-- `paper.py` lines 49-51, `_cost_rate`. -/
def cost_rate (st : BrokerState) : ℚ := (max st.fee_bps 0 + max st.slippage_bps 0) / 10000

/-- `paper.py` lines 150-190, `PaperBroker.open_position`.  The
`size <= 0` guard raises `ValueError` (modelled as `.error`); an already
tracked symbol is a warned no-op (`.ok` with the state unchanged);
otherwise the new position is inserted. -/
def open_position (st : BrokerState) (symbol side : String) (size entry_price : ℚ)
    (entry_ts_ms : Int) (stop_price trailing_anchor_price : Option ℚ) :
    Except String BrokerState :=
  if size ≤ 0 then .error "size must be > 0"
  else if (st.tracked.lookup symbol).isSome then .ok st
  else .ok { st with
    tracked := (symbol,
      { symbol := symbol, qty := size, side := side, entry_price := entry_price,
        entry_ts_ms := some entry_ts_ms, stop_price := stop_price,
        trailing_anchor_price := trailing_anchor_price }) :: st.tracked }

/-- `paper.py` lines 107-130, `PaperBroker.cooldown_remaining_bars`. -/
def cooldown_remaining_bars (st : BrokerState) (symbol : String)
    (now_ts_ms expected_step_s cooldown_bars : Int) : Int :=
  if cooldown_bars ≤ 0 then 0
  else if expected_step_s ≤ 0 then 0
  else
    match st.last_exit_ts_ms.lookup symbol with
    | none => 0
    | some last_exit =>
      let delta_ms : Int := max (now_ts_ms - last_exit) 0
      let bars_since : Int := ((delta_ms.toNat / (expected_step_s * 1000).toNat : Nat) : Int)
      max 0 (cooldown_bars - bars_since)

/-- `paper.py` lines 207-225, `PaperBroker.get_unrealized_pnl`:
(pnl_usd, pnl_pct), zero when untracked or `entry_price <= 0`. -/
def get_unrealized_pnl (st : BrokerState) (symbol : String) (last_price : ℚ) : ℚ × ℚ :=
  match st.tracked.lookup symbol with
  | none => (0, 0)
  | some pos =>
    if pos.entry_price ≤ 0 then (0, 0)
    else if pos.side = "LONG" then
      ((last_price - pos.entry_price) * pos.qty, (last_price - pos.entry_price) / pos.entry_price)
    else
      ((pos.entry_price - last_price) * pos.qty, (pos.entry_price - last_price) / pos.entry_price)

/-- The dict returned by `PaperBroker.realize_and_close`; CSV-blank
fields (`""`) are `none`. -/
structure CloseResult where
  symbol : String
  exit_reason : String
  side : Option String
  qty : Option ℚ
  entry_price : Option ℚ
  exit_price : ℚ
  entry_ts_ms : Option Int
  exit_ts_ms : Option Int
  stop_price : Option ℚ
  fee_bps : ℚ
  slippage_bps : ℚ
  cost_usd : ℚ
  realized_pnl_usd : ℚ
  realized_pnl_pct : ℚ
  cum_realized_pnl_usd : ℚ
  trades_closed : Nat
deriving DecidableEq

/-- `paper.py` lines 227-296, `PaperBroker.realize_and_close`.  Returns
the trade record and the broker state after the call.  With no tracked
position it returns a zero-PnL record and leaves the state untouched;
otherwise it nets out the symmetric entry+exit cost, accumulates the
totals, drops the position and (when `exit_ts_ms` is given) records the
exit timestamp for cooldown. -/
def realize_and_close (st : BrokerState) (symbol : String) (exit_price : ℚ)
    (reason : String) (exit_ts_ms : Option Int) : CloseResult × BrokerState :=
  match st.tracked.lookup symbol with
  | none =>
    ({ symbol := symbol, exit_reason := reason, side := none, qty := none,
       entry_price := none, exit_price := exit_price, entry_ts_ms := none,
       exit_ts_ms := exit_ts_ms, stop_price := none, fee_bps := st.fee_bps,
       slippage_bps := st.slippage_bps, cost_usd := 0, realized_pnl_usd := 0,
       realized_pnl_pct := 0, cum_realized_pnl_usd := st.realized_pnl_usd_total,
       trades_closed := st.trades_closed }, st)
  | some pos =>
    let gross_usd := (get_unrealized_pnl st symbol exit_price).1
    let rate := cost_rate st
    let entry_cost := pos.entry_price * pos.qty * rate
    let exit_cost := exit_price * pos.qty * rate
    let cost_usd := entry_cost + exit_cost
    let net_pnl_usd := gross_usd - cost_usd
    let entry_notional := pos.entry_price * pos.qty
    let net_pnl_pct := if 0 < entry_notional then net_pnl_usd / entry_notional else 0
    let st' : BrokerState :=
      { st with
        realized_pnl_usd_total := st.realized_pnl_usd_total + net_pnl_usd,
        trades_closed := st.trades_closed + 1,
        tracked := st.tracked.filter (fun p => !(p.1 == symbol)),
        last_exit_ts_ms :=
          match exit_ts_ms with
          | some t => (symbol, t) :: st.last_exit_ts_ms
          | none => st.last_exit_ts_ms }
    ({ symbol := symbol, exit_reason := reason, side := some pos.side,
       qty := some pos.qty, entry_price := some pos.entry_price,
       exit_price := exit_price, entry_ts_ms := pos.entry_ts_ms,
       exit_ts_ms := exit_ts_ms, stop_price := pos.stop_price,
       fee_bps := st.fee_bps, slippage_bps := st.slippage_bps,
       cost_usd := cost_usd, realized_pnl_usd := net_pnl_usd,
       realized_pnl_pct := net_pnl_pct,
       cum_realized_pnl_usd := st.realized_pnl_usd_total + net_pnl_usd,
       trades_closed := st.trades_closed + 1 }, st')

/-! ## Guard layer: `files/broker/guarded.py` -/

/-- `guarded.py` `Guardrails`, read fresh from the environment on each
entry attempt.  `kill_switch_present` stands for "`kill_switch_file` is
non-empty and the file exists" (`halt_reason`, lines 56-61), likewise
`halt_orders_present`. -/
structure Guardrails where
  kill_switch_present : Bool
  halt_orders_present : Bool
  armed : Bool
  dry_run : Bool
  max_order_usd : ℚ
  max_position_usd : ℚ
deriving DecidableEq

/-- `guarded.py` lines 56-61, `Guardrails.halt_reason`.  The code
interpolates the file path into the reason string; the model keeps the
tag only. -/
def halt_reason (g : Guardrails) : Option String :=
  if g.kill_switch_present then some "kill_switch"
  else if g.halt_orders_present then some "halt_orders"
  else none

/-- `guarded.py` lines 111-112: the quantity of the tracked position,
0 when the symbol is untracked. -/
def tracked_qty (st : BrokerState) (symbol : String) : ℚ :=
  match st.tracked.lookup symbol with
  | some p => p.qty
  | none => 0

/-- `guarded.py` lines 76-117, `GuardedBroker._block_entry_reason`.
The checks run in the source order: kill/halt files, arming gate,
price/size validity, order-notional cap, position-notional cap.  The
code interpolates the offending notionals into the cap reasons; the
model keeps the tags only. -/
def block_entry_reason (g : Guardrails) (require_armed : Bool) (st : BrokerState)
    (symbol : String) (size entry_price : ℚ) : Option String :=
  match halt_reason g with
  | some r => some r
  | none =>
    if require_armed && g.dry_run then some "dry_run"
    else if require_armed && !g.armed then some "not_armed"
    else if entry_price ≤ 0 ∨ size ≤ 0 then some "bad_inputs"
    else
      let order_usd := entry_price * size
      if 0 < g.max_order_usd ∧ g.max_order_usd < order_usd then some "max_order_usd"
      else
        let position_usd := entry_price * (tracked_qty st symbol + size)
        if 0 < g.max_position_usd ∧ g.max_position_usd < position_usd then
          some "max_position_usd"
        else none

/-- `guarded.py` lines 164-204, `GuardedBroker.open_position`: a blocked
entry is logged and becomes a no-op on the inner broker; otherwise the
call is passed through to `PaperBroker.open_position`. -/
def guarded_open_position (g : Guardrails) (require_armed : Bool) (st : BrokerState)
    (symbol side : String) (size entry_price : ℚ) (entry_ts_ms : Int)
    (stop_price trailing_anchor_price : Option ℚ) : Except String BrokerState :=
  match block_entry_reason g require_armed st symbol size entry_price with
  | some _ => .ok st
  | none => open_position st symbol side size entry_price entry_ts_ms
      stop_price trailing_anchor_price

/-- `guarded.py` lines 209-223, `GuardedBroker.realize_and_close`:
always passed through to the inner broker, never guarded. -/
def guarded_realize_and_close (st : BrokerState) (symbol : String) (exit_price : ℚ)
    (reason : String) (exit_ts_ms : Option Int) : CloseResult × BrokerState :=
  realize_and_close st symbol exit_price reason exit_ts_ms

/-! ## Decision ledger writer: `files/main.py` (same code in
`files/backtest/engine.py`) -/

/-- `main.py` lines 100-123, `_read_last_ts_ms_from_decisions_csv`.
`rows` holds, per CSV row, the result of `int(float(row["ts_ms"]))` with
0 substituted when the field is missing, blank, "nan" or unparseable
(exactly the code's fallback).  The scan keeps the LAST value that is
strictly positive. -/
def read_last_ts_ms_from_decisions_csv (rows : List Int) : Option Int :=
  rows.foldl (fun last ts_ms => if 0 < ts_ms then some ts_ms else last) none

/-- Modelled from the spec: "On process start, the ledger seeds its
last-written watermark by scanning the existing log's tail for the
maximum valid `ts_ms`".  The maximum of the strictly positive parsed
values, to be compared with `read_last_ts_ms_from_decisions_csv`. -/
def spec_max_valid_ts_ms (rows : List Int) : Option Int :=
  match rows.filter (fun t => decide (0 < t)) with
  | [] => none
  | t :: ts => some (ts.foldl max t)

/-- The ledger writer's state: the `last_decision_ts_ms` watermark and
the `ts_ms` values of the rows appended so far (in append order). -/
structure LedgerState where
  last_decision_ts_ms : Option Int
  written : List Int
deriving DecidableEq

/-- `main.py` lines 413-435, `_write_decision_once_per_bar` (identical
closure in `engine.py` lines 248-270).  `ts_ms` is the row's coerced
`ts_ms` (0 for missing/unparseable).  Appends only when positive and
strictly above the watermark, then advances the watermark. -/
def write_decision_once_per_bar (st : LedgerState) (ts_ms : Int) : LedgerState :=
  if ts_ms ≤ 0 then st
  else
    match st.last_decision_ts_ms with
    | some w => if ts_ms ≤ w then st else ⟨some ts_ms, st.written ++ [ts_ms]⟩
    | none => ⟨some ts_ms, st.written ++ [ts_ms]⟩

/-- A process run: the watermark is seeded (from the existing CSV via
`_read_last_ts_ms_from_decisions_csv`, `main.py` lines 396-397), then
each decision row is offered to the writer in order. -/
def run_ledger_writer (seed : Option Int) (rows : List Int) : LedgerState :=
  rows.foldl write_decision_once_per_bar ⟨seed, []⟩

/-! ## Per-bar write attempts in the two drivers -/

/-- The number of `_write_decision_once_per_bar` calls made by one
iteration of the LIVE driver loop body (`main.py` lines 453-899), as a
function of the branch conditions met, mirroring the code's
early-`continue` cascade.  `injected_fail` is a FORCE_FETCH_FAIL or
FORCE_PERSIST_FAIL `RuntimeError` injection whose handlers (lines
876-891) build a fresh blank row from literals and write once.  A real
fetch failure (`MarketFetchError`, handler at lines 471-480) instead
builds its row from the locals `now_ts_ms`, `now_iso`, `bar_high`,
`bar_low` and `position`, which are first assigned only at lines
533-545; `prior_bar_locals_bound` says some earlier iteration reached
those assignments.  When it did, the handler writes once; on a
first-iteration fetch failure the handler itself raises
`UnboundLocalError` at line 474, which propagates to the generic
`except Exception` at line 897 and is swallowed WITHOUT any write
attempt.  The remaining branches: `not_enough_bars` (552-560),
`cadence_failed` (562-579), `features_invalid` (602-630), an open
position whose exit signal fires (749-774), an open position held
(falls through to line 861), and for a flat book: cooldown active
(788-792), degraded (794-800), halted (802-808), entry blocked by the
size cap (826-832), and every remaining entry/no-entry path (falls
through to line 861) each write exactly once. -/
def live_iter_write_attempts (injected_fail prior_bar_locals_bound fetch_ok
    has_enough_bars cadence_ok features_ok has_position exit_fires
    cooldown_active degraded halted should_enter size_capped : Bool) : Nat :=
  if injected_fail then 1
  else if !fetch_ok then (if prior_bar_locals_bound then 1 else 0)
  else if !has_enough_bars then 1
  else if !cadence_ok then 1
  else if !features_ok then 1
  else if has_position && exit_fires then 1
  else if has_position then 1
  else if cooldown_active then 1
  else if degraded then 1
  else if halted then 1
  else if should_enter && size_capped then 1
  else 1

/-- The number of `_write_decision_once_per_bar` calls made for one bar
of the BACKTEST replay loop (`engine.py` lines 278-511), as a function
of the branch conditions met: a window shorter than `min_bars`
(lines 282-283) and invalid latest features (287-290) `continue`
WITHOUT writing; the pre-trading-window flat snapshot (349-355), a
pending entry (369-374), a fired exit (418-448) and every remaining
path (507-509) each write once. -/
def bt_iter_write_attempts (enough_rows features_ok allow_trading pending_entry
    has_position exit_fires : Bool) : Nat :=
  if !enough_rows then 0
  else if !features_ok then 0
  else if !allow_trading then 1
  else if pending_entry then 1
  else if has_position && exit_fires then 1
  else 1

/-! ## Equivalence verifier: `files/main_live_vs_backtest_equivalence.py` -/

/-- One decision row as the verifier reads it back from CSV.
`entry_should_enter` / `exit_should_exit` are the `_boolish` parses,
`has_stop` / `has_anchor` the "field not blank/nan" tests of
`_decision_sig`, and the string fields are the raw stripped CSV
values. -/
structure DecisionRow where
  entry_should_enter : Bool
  entry_side : String
  exit_should_exit : Bool
  exit_reason : String
  position_side : String
  has_stop : Bool
  has_anchor : Bool
deriving DecidableEq

/-- `_norm_side` (lines 44-48): keep LONG/SHORT, blank anything else.
The model takes already upper-cased stripped values. -/
def norm_side (x : String) : String :=
  if x = "LONG" ∨ x = "SHORT" then x else ""

/-- The signature tuple returned by `_decision_sig`. -/
structure DecisionSig where
  ts : Int
  enter : Bool
  entry_side : String
  exit : Bool
  exit_reason : String
  pos_side : String
  has_stop : Bool
  has_anchor : Bool
deriving DecidableEq

/-- `_decision_sig` (lines 63-91): the per-timestamp lifecycle
signature tuple. -/
def decision_sig (ts : Int) (r : DecisionRow) : DecisionSig :=
  { ts := ts, enter := r.entry_should_enter, entry_side := norm_side r.entry_side,
    exit := r.exit_should_exit, exit_reason := r.exit_reason,
    pos_side := norm_side r.position_side, has_stop := r.has_stop,
    has_anchor := r.has_anchor }

/-- `_is_noop_decision` (lines 94-103): no entry, no exit, no
position. -/
def is_noop_decision (r : DecisionRow) : Bool :=
  !r.entry_should_enter && !r.exit_should_exit && (r.position_side == "")

/-- A ts-keyed ledger (`live_by_ts` / `bt_by_ts`): association list with
dict lookup semantics. -/
def ledger_keys (m : List (Int × DecisionRow)) : List Int := m.map Prod.fst

/-- Whether ledger `m` has a row at `t` and that row is flat
(`position_side` blank), the per-side test of
`_find_first_mutual_flat_ts` (lines 203-205). -/
def flat_lookup (m : List (Int × DecisionRow)) (t : Int) : Bool :=
  match m.lookup t with
  | some r => r.position_side == ""
  | none => false

/-- `sorted(set(live) & set(bt))` over the two key sets (line 199). -/
def common_ts (live bt : List (Int × DecisionRow)) : List Int :=
  List.insertionSort (fun a b => a ≤ b)
    (((ledger_keys live).filter (fun t => (bt.lookup t).isSome)).dedup)

/-- The loop predicate of `_find_first_mutual_flat_ts` (lines 200-206):
inside the window and flat on both sides. -/
def mutual_flat_pred (live bt : List (Int × DecisionRow)) (lo hi t : Int) : Bool :=
  decide (lo ≤ t) && decide (t ≤ hi) && flat_lookup live t && flat_lookup bt t

/-- `_find_first_mutual_flat_ts` (lines 189-207): first common
timestamp, in ascending order, that is inside the window with both
sides flat. -/
def find_first_mutual_flat_ts (live bt : List (Int × DecisionRow)) (lo hi : Int) :
    Option Int :=
  (common_ts live bt).find? (mutual_flat_pred live bt lo hi)

/-- `mutual_flat_pred` as a proposition. -/
def mutual_flat_at (live bt : List (Int × DecisionRow)) (lo hi t : Int) : Prop :=
  lo ≤ t ∧ t ≤ hi ∧ flat_lookup live t = true ∧ flat_lookup bt t = true

instance (live bt : List (Int × DecisionRow)) (lo hi t : Int) :
    Decidable (mutual_flat_at live bt lo hi t) := by
  unfold mutual_flat_at; infer_instance

/-- `compare_decisions_by_ts` lines 269-274: the sync point, falling
back to the overlap start when no mutual flat exists. -/
def sync_ts (live bt : List (Int × DecisionRow)) (lo hi : Int) : Int :=
  (find_first_mutual_flat_ts live bt lo hi).getD lo

/-- Lines 277-278: keep only timestamps at or after the sync point. -/
def restrict_ge (m : List (Int × DecisionRow)) (s : Int) : List (Int × DecisionRow) :=
  m.filter (fun p => decide (s ≤ p.1))

/-- Lines 286-295: the one-sided timestamps of `present` (absent from
`other`) whose present row is NOT a true no-op; these make the
comparison fail. -/
def missing_bad (present other : List (Int × DecisionRow)) : List Int :=
  ((ledger_keys present).filter (fun t => (other.lookup t).isNone)).filter
    (fun t =>
      match present.lookup t with
      | some r => !(is_noop_decision r)
      | none => false)

/-- The trailing outcome of `compare_decisions_by_ts`. -/
inductive DecisionsOutcome where
  | fail_no_common
  | fail_missing
  | fail_mismatch (t : Int)
  | pass
deriving DecidableEq

/-- `compare_decisions_by_ts` lines 280-332, applied to the two ts-keyed
maps already restricted to timestamps at or after the sync point:
fail when no common timestamp remains, else fail when some one-sided
timestamp is not a tolerated no-op, else report the first signature
mismatch over the ascending common timestamps, else pass. -/
def compare_after_sync (live bt : List (Int × DecisionRow)) : DecisionsOutcome :=
  let common := common_ts live bt
  if common.isEmpty then .fail_no_common
  else if !(missing_bad bt live).isEmpty || !(missing_bad live bt).isEmpty then
    .fail_missing
  else
    match common.find? (fun t =>
        match live.lookup t, bt.lookup t with
        | some lr, some br => !(decide (decision_sig t lr = decision_sig t br))
        | _, _ => false) with
    | some t => .fail_mismatch t
    | none => .pass

/-- `compare_decisions_by_ts` lines 269-332 on the overlap-restricted
maps `live` / `bt` (the dicts built at lines 252-267): compute the sync
point, restrict both sides to it, then compare. -/
def compare_decisions_core (live bt : List (Int × DecisionRow)) (lo hi : Int) :
    DecisionsOutcome :=
  let s := sync_ts live bt lo hi
  compare_after_sync (restrict_ge live s) (restrict_ge bt s)

/-! ## Sample values used by witnesses and counterexamples -/

/-- A LONG position with a valid stop and no trailing anchor yet. -/
def sample_long_pos : Position :=
  { symbol := "BTC/USD", qty := 1, side := "LONG", entry_price := 100,
    entry_ts_ms := some 1000, stop_price := some 5, trailing_anchor_price := none }

/-- A broker already tracking a position on BTC/USD. -/
def occupied_broker : BrokerState :=
  { tracked := [("BTC/USD", sample_long_pos)], last_exit_ts_ms := [],
    fee_bps := 0, slippage_bps := 0, realized_pnl_usd_total := 0, trades_closed := 0 }

/-- A broker tracking nothing, with non-trivial totals and cost config. -/
def empty_broker : BrokerState :=
  { tracked := [], last_exit_ts_ms := [("BTC/USD", 5000)], fee_bps := 10,
    slippage_bps := 5, realized_pnl_usd_total := 7, trades_closed := 3 }

/-- A tradable market state whose trend is flat. -/
def tradable_flat_state : MarketState :=
  { tradable := true, trend := "flat", volatility := "normal",
    cadence_ok := true, has_enough_bars := true, reason := none }

/-! ## C10 -/

/-- C10: for a symbol with no tracked position, `realize_and_close`
returns a record with zero realized PnL (usd and pct) and leaves the
whole broker state — cumulative total, closed-trade counter, tracked
map and last-exit timestamps — exactly unchanged. -/
theorem c10_realize_and_close_untracked_noop
    (st : BrokerState) (symbol : String) (exit_price : ℚ) (reason : String)
    (exit_ts_ms : Option Int) (h : st.tracked.lookup symbol = none) :
    (realize_and_close st symbol exit_price reason exit_ts_ms).2 = st ∧
    (realize_and_close st symbol exit_price reason exit_ts_ms).1.realized_pnl_usd = 0 ∧
    (realize_and_close st symbol exit_price reason exit_ts_ms).1.realized_pnl_pct = 0 ∧
    (realize_and_close st symbol exit_price reason exit_ts_ms).1.cum_realized_pnl_usd =
      st.realized_pnl_usd_total ∧
    (realize_and_close st symbol exit_price reason exit_ts_ms).1.trades_closed =
      st.trades_closed := by
  simp [realize_and_close, h]

/-- Witness for C10 at a concrete untracked broker. -/
theorem c10_witness :
    empty_broker.tracked.lookup "ETH/USD" = none ∧
    ((realize_and_close empty_broker "ETH/USD" 10 "manual" (some 9000)).2 = empty_broker ∧
     (realize_and_close empty_broker "ETH/USD" 10 "manual" (some 9000)).1.realized_pnl_usd = 0 ∧
     (realize_and_close empty_broker "ETH/USD" 10 "manual" (some 9000)).1.realized_pnl_pct = 0 ∧
     (realize_and_close empty_broker "ETH/USD" 10 "manual" (some 9000)).1.cum_realized_pnl_usd =
       empty_broker.realized_pnl_usd_total ∧
     (realize_and_close empty_broker "ETH/USD" 10 "manual" (some 9000)).1.trades_closed =
       empty_broker.trades_closed) :=
  ⟨rfl, c10_realize_and_close_untracked_noop empty_broker "ETH/USD" 10 "manual" (some 9000) rfl⟩

/-! ## C5 -/

/-- C5 counterexample: a call on an already-occupied symbol with
`size = 0` raises `ValueError` (the `size <= 0` check precedes the
occupied-symbol check), so "never crashes" fails as stated. -/
theorem c5_counterexample :
    (occupied_broker.tracked.lookup "BTC/USD").isSome = true ∧
    open_position occupied_broker "BTC/USD" "LONG" 0 100 2000 none none =
      .error "size must be > 0" := by
  constructor
  · rfl
  · norm_num [open_position]

/-- C5 (amended): on a symbol that already has a tracked position, an
`open_position` call with positive size is a no-op (warning only): the
state is returned unchanged, so the position is never replaced and no
second position is created; a call with `size <= 0` instead raises
`ValueError` before the occupied check is reached. -/
theorem c5_open_position_occupied_noop
    (st : BrokerState) (symbol side : String) (size entry_price : ℚ) (entry_ts_ms : Int)
    (stop_price trailing_anchor_price : Option ℚ)
    (hocc : (st.tracked.lookup symbol).isSome) :
    (0 < size →
      open_position st symbol side size entry_price entry_ts_ms stop_price
        trailing_anchor_price = .ok st) ∧
    (size ≤ 0 →
      open_position st symbol side size entry_price entry_ts_ms stop_price
        trailing_anchor_price = .error "size must be > 0") := by
  constructor
  · intro hs
    simp [open_position, hocc, not_le.mpr hs]
  · intro hs
    simp [open_position, hs]

/-- Witness for C5 at a concrete occupied broker. -/
theorem c5_witness :
    (occupied_broker.tracked.lookup "BTC/USD").isSome = true ∧
    open_position occupied_broker "BTC/USD" "SHORT" 1 50 3000 none none =
      .ok occupied_broker :=
  ⟨rfl, (c5_open_position_occupied_noop occupied_broker "BTC/USD" "SHORT" 1 50 3000
    none none rfl).1 (by norm_num)⟩

/-! ## C3 -/

/-- C3 counterexample: a backtest bar whose window is shorter than
`min_bars` makes zero write attempts (the claim says exactly one in
both drivers). -/
theorem c3_counterexample :
    bt_iter_write_attempts false true true true true true = 0 ∧ (0 : Nat) ≠ 1 := by
  decide

/-- C3 (amended): every bar processed by the LIVE driver — traded,
skipped for insufficient history, failed cadence, invalid features,
injected failure, cooldown, degraded, halted or size-capped — makes
exactly one attempted ledger write, and so does a fetch failure AFTER
some earlier iteration has bound the handler's bar locals; but a fetch
failure on the FIRST iteration makes the `MarketFetchError` handler
itself raise `UnboundLocalError` (main.py line 474), swallowed by the
generic exception handler with ZERO write attempts.  In the BACKTEST
replay driver every processed bar makes exactly one attempted write,
EXCEPT that a bar skipped for insufficient rows or invalid latest
features makes none (those bars are skipped before the decision row is
built and are not counted as processed). -/
theorem c3_one_write_attempt_per_bar :
    (∀ injected_fail prior_bar_locals_bound fetch_ok has_enough_bars cadence_ok
        features_ok has_position exit_fires cooldown_active degraded halted
        should_enter size_capped : Bool,
      fetch_ok = true →
      live_iter_write_attempts injected_fail prior_bar_locals_bound fetch_ok
        has_enough_bars cadence_ok features_ok has_position exit_fires
        cooldown_active degraded halted should_enter size_capped = 1) ∧
    (∀ injected_fail has_enough_bars cadence_ok features_ok has_position
        exit_fires cooldown_active degraded halted should_enter
        size_capped : Bool,
      injected_fail = true →
      live_iter_write_attempts injected_fail false false has_enough_bars
        cadence_ok features_ok has_position exit_fires cooldown_active degraded
        halted should_enter size_capped = 1) ∧
    (∀ has_enough_bars cadence_ok features_ok has_position exit_fires
        cooldown_active degraded halted should_enter size_capped : Bool,
      live_iter_write_attempts false true false has_enough_bars cadence_ok
        features_ok has_position exit_fires cooldown_active degraded halted
        should_enter size_capped = 1) ∧
    (∀ has_enough_bars cadence_ok features_ok has_position exit_fires
        cooldown_active degraded halted should_enter size_capped : Bool,
      live_iter_write_attempts false false false has_enough_bars cadence_ok
        features_ok has_position exit_fires cooldown_active degraded halted
        should_enter size_capped = 0) ∧
    (∀ enough_rows features_ok allow_trading pending_entry has_position
        exit_fires : Bool,
      enough_rows = true → features_ok = true →
      bt_iter_write_attempts enough_rows features_ok allow_trading pending_entry
        has_position exit_fires = 1) ∧
    (∀ features_ok allow_trading pending_entry has_position exit_fires : Bool,
      bt_iter_write_attempts false features_ok allow_trading pending_entry
        has_position exit_fires = 0) ∧
    (∀ allow_trading pending_entry has_position exit_fires : Bool,
      bt_iter_write_attempts true false allow_trading pending_entry
        has_position exit_fires = 0) := by
  refine ⟨?_, ?_, ?_, ?_, ?_, ?_, ?_⟩ <;> decide

/-- Witness for C3 at one concrete live branch and one concrete
backtest branch. -/
theorem c3_witness :
    live_iter_write_attempts false false true true true true false false false
      false false false false = 1 ∧
    bt_iter_write_attempts true true true false false false = 1 :=
  ⟨c3_one_write_attempt_per_bar.1 false false true true true true false false
      false false false false false rfl,
   c3_one_write_attempt_per_bar.2.2.2.2.1 true true true false false false
      rfl rfl⟩

/-! ## C7 -/

lemma evaluate_entry_not_tradable (ms : MarketState) (conf : Option ℚ) (fs : String)
    (h : ms.tradable = false) : (evaluate_entry ms conf fs).should_enter = false := by
  simp [evaluate_entry, h]

lemma evaluate_entry_enters (ms : MarketState) (conf : Option ℚ) (fs : String)
    (hfs1 : fs ≠ "LONG") (hfs2 : fs ≠ "SHORT")
    (h : (evaluate_entry ms conf fs).should_enter = true) :
    ∃ c, conf = some c ∧ CONFIDENCE_ENTER ≤ c ∧
      ((ms.trend = "up" ∧ (evaluate_entry ms conf fs).side = "LONG") ∨
       (ms.trend = "down" ∧ (evaluate_entry ms conf fs).side = "SHORT")) := by
  by_cases ht : ms.tradable
  · rcases conf with _ | c
    · simp [evaluate_entry, ht] at h
    · unfold evaluate_entry at h ⊢
      simp only [ht, Bool.not_true, Bool.false_eq_true, if_false] at h ⊢
      have hor : ¬(fs = "LONG" ∨ fs = "SHORT") := by
        rintro (h' | h') <;> [exact hfs1 h'; exact hfs2 h']
      rw [if_neg hor] at h ⊢
      by_cases h1 : ms.trend = "up" ∧ CONFIDENCE_ENTER ≤ c
      · rw [if_pos h1] at h ⊢
        exact ⟨c, rfl, h1.2, .inl ⟨h1.1, rfl⟩⟩
      · rw [if_neg h1] at h ⊢
        by_cases h2 : ms.trend = "down" ∧ CONFIDENCE_ENTER ≤ c
        · rw [if_pos h2] at h ⊢
          exact ⟨c, rfl, h2.2, .inr ⟨h2.1, rfl⟩⟩
        · rw [if_neg h2] at h
          simp at h
  · rw [evaluate_entry_not_tradable ms conf fs (by simpa using ht)] at h
    cases h

/-- C7 counterexample: with the `FORCE_SIDE` environment override set to
LONG, a tradable bar with a FLAT trend and confidence 0.70 produces
`should_enter = true`, so "flat trend never enters" and "entry only on
directional trend agreement" fail as stated. -/
theorem c7_counterexample :
    tradable_flat_state.trend = "flat" ∧
    (evaluate_entry tradable_flat_state (some (7 / 10)) "LONG").should_enter = true := by
  constructor
  · rfl
  · norm_num [evaluate_entry, tradable_flat_state, CONFIDENCE_ENTER]

/-- C7 (amended): `evaluate_entry` returns `should_enter = false`
immediately whenever the state is not tradable (for any `FORCE_SIDE`
value); and whenever the `FORCE_SIDE` environment override is not set
to LONG or SHORT, an entry is produced only if the model confidence is
at least the 0.60 threshold and the trend agrees directionally with the
chosen side (up gives LONG, down gives SHORT); in particular a flat
trend never produces an entry.  (With `FORCE_SIDE` set to LONG or
SHORT, the code enters on confidence alone, ignoring the trend.) -/
theorem c7_entry_requires_trend_agreement
    (market_state : MarketState) (confidence : Option ℚ) (force_side : String)
    (hfs : force_side ≠ "LONG" ∧ force_side ≠ "SHORT") :
    (market_state.tradable = false →
      ∀ fs : String, (evaluate_entry market_state confidence fs).should_enter = false) ∧
    ((evaluate_entry market_state confidence force_side).should_enter = true →
      ∃ c, confidence = some c ∧ CONFIDENCE_ENTER ≤ c ∧
        ((market_state.trend = "up" ∧
            (evaluate_entry market_state confidence force_side).side = "LONG") ∨
         (market_state.trend = "down" ∧
            (evaluate_entry market_state confidence force_side).side = "SHORT"))) ∧
    (market_state.trend = "flat" →
      (evaluate_entry market_state confidence force_side).should_enter = false) := by
  refine ⟨fun h fs => evaluate_entry_not_tradable market_state confidence fs h,
    fun h => evaluate_entry_enters market_state confidence force_side hfs.1 hfs.2 h, ?_⟩
  intro hflat
  by_contra hne
  have h : (evaluate_entry market_state confidence force_side).should_enter = true := by
    cases he : (evaluate_entry market_state confidence force_side).should_enter
    · exact absurd he hne
    · rfl
  obtain ⟨c, -, -, h' | h'⟩ :=
    evaluate_entry_enters market_state confidence force_side hfs.1 hfs.2 h
  · rw [hflat] at h'
    exact absurd h'.1 (by decide)
  · rw [hflat] at h'
    exact absurd h'.1 (by decide)

/-- Witness for C7 with `FORCE_SIDE` unset on a tradable flat bar. -/
theorem c7_witness :
    ("" ≠ "LONG" ∧ "" ≠ "SHORT") ∧
    (tradable_flat_state.trend = "flat" →
      (evaluate_entry tradable_flat_state (some (7 / 10)) "").should_enter = false) :=
  ⟨by decide,
   (c7_entry_requires_trend_agreement tradable_flat_state (some (7 / 10)) ""
     (by decide)).2.2⟩

/-! ## C8 -/

/-- C8: with a last close recorded at time `T`, cooldown of `N > 0` bars
and step `S > 0` seconds, `cooldown_remaining_bars` returns `N` at
`now = T`, is non-increasing in `now`, and equals 0 exactly from
`now = T + N*S*1000` ms on (so it is still positive at any earlier
instant). -/
theorem c8_cooldown_remaining_bars_exact
    (st : BrokerState) (symbol : String) (T N S : Int)
    (hlast : st.last_exit_ts_ms.lookup symbol = some T) (hN : 0 < N) (hS : 0 < S) :
    cooldown_remaining_bars st symbol T S N = N ∧
    (∀ n₁ n₂ : Int, n₁ ≤ n₂ →
      cooldown_remaining_bars st symbol n₂ S N ≤ cooldown_remaining_bars st symbol n₁ S N) ∧
    (∀ now : Int,
      cooldown_remaining_bars st symbol now S N = 0 ↔ T + N * (S * 1000) ≤ now) := by
  have hS1000 : (0 : Int) < S * 1000 := by omega
  have hdpos : 0 < (S * 1000).toNat := by omega
  refine ⟨?_, ?_, ?_⟩
  · simp only [cooldown_remaining_bars, hlast, if_neg (by omega : ¬N ≤ 0),
      if_neg (by omega : ¬S ≤ 0), sub_self, max_self, Int.toNat_zero, Nat.zero_div]
    omega
  · intro n₁ n₂ h
    simp only [cooldown_remaining_bars, hlast, if_neg (by omega : ¬N ≤ 0),
      if_neg (by omega : ¬S ≤ 0)]
    have hdiv : (max (n₁ - T) 0).toNat / (S * 1000).toNat ≤
        (max (n₂ - T) 0).toNat / (S * 1000).toNat :=
      Nat.div_le_div_right (by omega)
    generalize (max (n₁ - T) 0).toNat / (S * 1000).toNat = q₁ at hdiv ⊢
    generalize (max (n₂ - T) 0).toNat / (S * 1000).toNat = q₂ at hdiv ⊢
    omega
  · intro now
    simp only [cooldown_remaining_bars, hlast, if_neg (by omega : ¬N ≤ 0),
      if_neg (by omega : ¬S ≤ 0)]
    have hchain : N.toNat ≤ (max (now - T) 0).toNat / (S * 1000).toNat ↔
        N * (S * 1000) ≤ max (now - T) 0 := by
      rw [Nat.le_div_iff_mul_le hdpos]
      constructor
      · intro h
        have h' := (Nat.cast_le (α := ℤ)).2 h
        push_cast at h'
        rw [Int.toNat_of_nonneg hN.le, Int.toNat_of_nonneg hS1000.le,
          Int.toNat_of_nonneg (le_max_right _ _)] at h'
        exact h'
      · intro h
        have h' : ((N.toNat * (S * 1000).toNat : ℕ) : ℤ) ≤
            (((max (now - T) 0).toNat : ℕ) : ℤ) := by
          push_cast
          rw [Int.toNat_of_nonneg hN.le, Int.toNat_of_nonneg hS1000.le,
            Int.toNat_of_nonneg (le_max_right _ _)]
          exact h
        exact_mod_cast h'
    have hP : (0 : Int) < N * (S * 1000) := mul_pos hN hS1000
    generalize (max (now - T) 0).toNat / (S * 1000).toNat = q at hchain ⊢
    constructor
    · intro h
      have h1 : N.toNat ≤ q := by omega
      have h2 := hchain.1 h1
      omega
    · intro h
      have h2 : N * (S * 1000) ≤ max (now - T) 0 := by omega
      have h1 := hchain.2 h2
      omega

/-- Witness for C8 at a concrete close time and configuration. -/
theorem c8_witness :
    empty_broker.last_exit_ts_ms.lookup "BTC/USD" = some 5000 ∧
    cooldown_remaining_bars empty_broker "BTC/USD" 5000 300 3 = 3 ∧
    (cooldown_remaining_bars empty_broker "BTC/USD" 905000 300 3 = 0 ↔
      (5000 : Int) + 3 * (300 * 1000) ≤ 905000) :=
  ⟨rfl,
   (c8_cooldown_remaining_bars_exact empty_broker "BTC/USD" 5000 3 300 rfl
     (by norm_num) (by norm_num)).1,
   (c8_cooldown_remaining_bars_exact empty_broker "BTC/USD" 5000 3 300 rfl
     (by norm_num) (by norm_num)).2.2 905000⟩

/-! ## C2 -/

/-- The per-bar inputs of one trailing-stop update (close, high, low,
ATR), each `none` when missing or NaN. -/
structure TrailBar where
  close : Option ℚ
  high : Option ℚ
  low : Option ℚ
  atr : Option ℚ
deriving DecidableEq

/-- How the drivers apply one trailing-stop update to the tracked
position (`main.py` lines 713-735, `engine.py` lines 384-406 together
with `PaperBroker.update_stop`, `paper.py` lines 66-105): the stop and
anchor are stored only when the computed new stop is not `None`;
a `None` anchor leaves the stored anchor unchanged. -/
def apply_trailing_update (p : Position) (b : TrailBar) : Position :=
  match compute_trailing_stop_update p b.close b.high b.low b.atr (some TRAIL_ATR_MULT) with
  | (some ns, na, _) =>
    { p with stop_price := some ns,
             trailing_anchor_price :=
               match na with
               | some a => some a
               | none => p.trailing_anchor_price }
  | (none, _, _) => p

/-- A sequence of trailing-stop updates applied in order. -/
def run_trailing_updates (p : Position) (bars : List TrailBar) : Position :=
  bars.foldl apply_trailing_update p

lemma trailing_stop_never_loosens (p : Position) (close hi lo atr mult : Option ℚ)
    (ps ns : ℚ) (hps : p.stop_price = some ps)
    (h : (compute_trailing_stop_update p close hi lo atr mult).1 = some ns) :
    (p.side = "LONG" → ps ≤ ns) ∧ (p.side ≠ "LONG" → ns ≤ ps) := by
  unfold compute_trailing_stop_update at h
  rcases close with _ | c
  · simp at h
  rcases atr with _ | a
  · simp at h
  by_cases ha : a ≤ 0
  · simp [ha] at h
  rcases mult with _ | m
  · simp [ha] at h
  by_cases hm : m ≤ 0
  · simp [ha, hm] at h
  simp only [if_neg ha, if_neg hm] at h
  by_cases hside : p.side = "LONG"
  · rw [if_pos hside] at h
    simp only [hps] at h
    by_cases hc : long_anchor p.trailing_anchor_price (hi.getD c) - m * a ≤ 0
    · rw [if_pos hc] at h
      simp at h
    · rw [if_neg hc] at h
      simp only [Option.some.injEq] at h
      refine ⟨fun _ => ?_, fun hn => absurd hside hn⟩
      rw [← h]
      exact le_max_left _ _
  · rw [if_neg hside] at h
    simp only [hps] at h
    by_cases hc : short_anchor p.trailing_anchor_price (lo.getD c) + m * a ≤ 0
    · rw [if_pos hc] at h
      simp at h
    · rw [if_neg hc] at h
      simp only [Option.some.injEq] at h
      refine ⟨fun hl => absurd hl hside, fun _ => ?_⟩
      rw [← h]
      exact min_le_left _ _

lemma apply_trailing_update_side (p : Position) (b : TrailBar) :
    (apply_trailing_update p b).side = p.side := by
  unfold apply_trailing_update
  rcases h : compute_trailing_stop_update p b.close b.high b.low b.atr
    (some TRAIL_ATR_MULT) with ⟨os, na, r⟩
  rcases os with _ | ns
  · rfl
  · rfl

lemma apply_trailing_update_stop (p : Position) (b : TrailBar) (ps : ℚ)
    (hps : p.stop_price = some ps) :
    ∃ ns, (apply_trailing_update p b).stop_price = some ns ∧
      (p.side = "LONG" → ps ≤ ns) ∧ (p.side ≠ "LONG" → ns ≤ ps) := by
  unfold apply_trailing_update
  rcases h : compute_trailing_stop_update p b.close b.high b.low b.atr
    (some TRAIL_ATR_MULT) with ⟨os, na, r⟩
  rcases os with _ | ns
  · exact ⟨ps, hps, fun _ => le_refl _, fun _ => le_refl _⟩
  · have hb := trailing_stop_never_loosens p b.close b.high b.low b.atr
      (some TRAIL_ATR_MULT) ps ns hps (by rw [h])
    exact ⟨ns, rfl, hb.1, hb.2⟩

lemma run_trailing_updates_bounded (bars : List TrailBar) :
    ∀ (p : Position) (ps : ℚ), p.stop_price = some ps →
      ∃ ns, (run_trailing_updates p bars).stop_price = some ns ∧
        (p.side = "LONG" → ps ≤ ns) ∧ (p.side ≠ "LONG" → ns ≤ ps) := by
  induction bars with
  | nil =>
    intro p ps h
    exact ⟨ps, h, fun _ => le_refl _, fun _ => le_refl _⟩
  | cons b bs ih =>
    intro p ps h
    obtain ⟨m₁, hm₁, hl₁, hs₁⟩ := apply_trailing_update_stop p b ps h
    obtain ⟨ns, hns, hl₂, hs₂⟩ := ih (apply_trailing_update p b) m₁ hm₁
    refine ⟨ns, hns, fun hL => ?_, fun hL => ?_⟩
    · exact (hl₁ hL).trans (hl₂ (by rw [apply_trailing_update_side]; exact hL))
    · exact (hs₂ (by rw [apply_trailing_update_side]; exact hL)).trans (hs₁ hL)

/-- C2 counterexample: LONG position with valid previous stop 5, valid
close 1, ATR 10 and multiplier 2; the candidate is 1 - 2*10 = -19 <= 0,
so the update returns no stop at all ("candidate_invalid") instead of
the claimed max(prev_stop, candidate) = 5. -/
theorem c2_counterexample :
    sample_long_pos.side = "LONG" ∧ sample_long_pos.stop_price = some 5 ∧
    compute_trailing_stop_update sample_long_pos (some 1) none none (some 10) (some 2) =
      (none, some 1, "candidate_invalid") ∧
    (compute_trailing_stop_update sample_long_pos (some 1) none none (some 10)
      (some 2)).1 ≠ some (max 5 (1 - 2 * 10)) := by
  refine ⟨rfl, rfl, ?_, ?_⟩
  · norm_num [compute_trailing_stop_update, sample_long_pos, long_anchor]
  · norm_num [compute_trailing_stop_update, sample_long_pos, long_anchor]
    simp

/-- C2 (amended): with a valid previous stop, positive ATR, positive
multiplier and valid close, `compute_trailing_stop_update` returns
max(prev_stop, candidate) for LONG and min(prev_stop, candidate) for
SHORT PROVIDED the candidate (anchor minus, resp. plus, mult*ATR) is
positive; when
the candidate is non-positive it returns no stop ("candidate_invalid")
and the stored stop is left unchanged.  In every case a stop emitted
with a valid previous stop never loosens, so over any sequence of
updates the stored stop is non-decreasing for LONG and non-increasing
for SHORT. -/
theorem c2_trailing_stop_ratchet
    (p : Position) (hi lo : Option ℚ) (c a m ps : ℚ)
    (hps : p.stop_price = some ps) (ha : 0 < a) (hm : 0 < m) :
    (p.side = "LONG" → 0 < long_anchor p.trailing_anchor_price (hi.getD c) - m * a →
      compute_trailing_stop_update p (some c) hi lo (some a) (some m) =
        (some (max ps (long_anchor p.trailing_anchor_price (hi.getD c) - m * a)),
         some (long_anchor p.trailing_anchor_price (hi.getD c)), "ratchet")) ∧
    (p.side ≠ "LONG" → 0 < short_anchor p.trailing_anchor_price (lo.getD c) + m * a →
      compute_trailing_stop_update p (some c) hi lo (some a) (some m) =
        (some (min ps (short_anchor p.trailing_anchor_price (lo.getD c) + m * a)),
         some (short_anchor p.trailing_anchor_price (lo.getD c)), "ratchet")) ∧
    (∀ close' hi' lo' atr' mult' ns,
      (compute_trailing_stop_update p close' hi' lo' atr' mult').1 = some ns →
      (p.side = "LONG" → ps ≤ ns) ∧ (p.side ≠ "LONG" → ns ≤ ps)) ∧
    (∀ (bars : List TrailBar) (ns : ℚ),
      (run_trailing_updates p bars).stop_price = some ns →
      (p.side = "LONG" → ps ≤ ns) ∧ (p.side ≠ "LONG" → ns ≤ ps)) := by
  refine ⟨?_, ?_, ?_, ?_⟩
  · intro hside hcand
    simp [compute_trailing_stop_update, hps, hside, not_le.mpr ha, not_le.mpr hm,
      not_le.mpr hcand]
  · intro hside hcand
    simp [compute_trailing_stop_update, hps, hside, not_le.mpr ha, not_le.mpr hm,
      not_le.mpr hcand]
  · intro close' hi' lo' atr' mult' ns h
    exact trailing_stop_never_loosens p close' hi' lo' atr' mult' ps ns hps h
  · intro bars ns h
    obtain ⟨ns', hns', hb⟩ := run_trailing_updates_bounded bars p ps hps
    rw [hns'] at h
    obtain rfl : ns' = ns := by injection h
    exact hb

/-- Witness for C2: a LONG ratchet step at concrete values
(anchor 10, ATR 1, multiplier 2, candidate 8 > 0, prev stop 5). -/
theorem c2_witness :
    sample_long_pos.stop_price = some 5 ∧
    compute_trailing_stop_update sample_long_pos (some 10) none none (some 1) (some 2) =
      (some (max 5 (long_anchor sample_long_pos.trailing_anchor_price
          ((none : Option ℚ).getD 10) - 2 * 1)),
       some (long_anchor sample_long_pos.trailing_anchor_price
          ((none : Option ℚ).getD 10)), "ratchet") :=
  ⟨rfl,
   (c2_trailing_stop_ratchet sample_long_pos none none 10 1 2 5 rfl (by norm_num)
     (by norm_num)).1 rfl (by norm_num [long_anchor, sample_long_pos])⟩

/-! ## C6 -/

/-- "The bar close does not trip the stop check": every stored stop
(there is at most one) compares on the non-breach side. -/
def no_stop_breach (p : Position) (close : ℚ) : Prop :=
  ∀ sp, p.stop_price = some sp → stop_breached p.side sp close = false

lemma evaluate_exit_no_breach_reduce (p : Position) (ms : MarketState) (T now : Int)
    (close : ℚ) (hms : ms.tradable = true) (he : p.entry_ts_ms = some T)
    (hnb : no_stop_breach p close) :
    evaluate_exit p (some close) now ms 300 =
      if (24 : Int) ≤ bars_held T now 300 then ⟨true, some "time_stop"⟩
      else ⟨false, none⟩ := by
  unfold evaluate_exit
  simp only [hms, Bool.not_true, Bool.false_eq_true, if_false, he]
  have hstop : ∀ b : Bool,
      (if b then false
       else match p.stop_price with
            | some sp => stop_breached p.side sp close
            | none => false) = false := by
    intro b
    cases b
    · rcases hsp : p.stop_price with _ | sp
      · simp
      · simpa using hnb sp hsp
    · simp
  rw [hstop]
  simp [MAX_HOLD_BARS]

lemma bars_held_iff (T now : Int) :
    ((24 : Int) ≤ bars_held T now 300) ↔ T + 24 * 300000 ≤ now := by
  unfold bars_held
  rw [if_neg (by norm_num : ¬(300 : Int) ≤ 0)]
  have h3 : ((300 : Int) * 1000).toNat = 300000 := by decide
  rw [h3]
  omega

/-- C6 counterexample: a LONG position entered at T = 1000 with stop
100, evaluated on a tradable bar at T + 24*300000 whose close 50
breaches the stop: the exit fires with reason "stop_hit", not
"time_stop" (the stop check runs before the time stop), refuting
"reason time_stop regardless of the bar's price". -/
theorem c6_counterexample :
    (let p : Position :=
      { symbol := "BTC/USD", qty := 1, side := "LONG", entry_price := 100,
        entry_ts_ms := some 1000, stop_price := some 100,
        trailing_anchor_price := none }
     evaluate_exit p (some 50) (1000 + 24 * 300000) tradable_flat_state 300) =
      { should_exit := true, reason := some "stop_hit" } ∧
    some "stop_hit" ≠ some "time_stop" := by
  constructor
  · norm_num [evaluate_exit, tradable_flat_state, stop_breached, bars_held,
      MAX_HOLD_BARS]
  · simp

/-- C6 (amended): with MAX_HOLD_BARS = 24 and a 300 s (300000 ms) step,
for a position entered at `T` evaluated at a tradable bar with a valid
close: (1) at timestamp `T + 24*300000` the exit always fires,
regardless of the close price — but its reason is "stop_hit" when the
close breaches the stored stop, and "time_stop" otherwise; (2) when the
close does not breach the stop, the result is exactly the time stop,
and (3) it fires if and only if bars-held, floor((now - T)/300000),
has reached MAX_HOLD_BARS, i.e. iff `T + 24*300000 <= now`. -/
theorem c6_time_stop_exact
    (p : Position) (T : Int) (ms : MarketState)
    (hms : ms.tradable = true) (he : p.entry_ts_ms = some T) :
    (∀ close : ℚ,
      (evaluate_exit p (some close) (T + 24 * 300000) ms 300).should_exit = true) ∧
    (∀ close : ℚ, no_stop_breach p close →
      evaluate_exit p (some close) (T + 24 * 300000) ms 300 =
        { should_exit := true, reason := some "time_stop" }) ∧
    (∀ (now : Int) (close : ℚ), no_stop_breach p close →
      (evaluate_exit p (some close) now ms 300 =
          { should_exit := true, reason := some "time_stop" } ↔
        T + 24 * 300000 ≤ now)) := by
  have hpart3 : ∀ (now : Int) (close : ℚ), no_stop_breach p close →
      (evaluate_exit p (some close) now ms 300 =
          { should_exit := true, reason := some "time_stop" } ↔
        T + 24 * 300000 ≤ now) := by
    intro now close hnb
    rw [evaluate_exit_no_breach_reduce p ms T now close hms he hnb]
    rw [← bars_held_iff T now]
    by_cases h : (24 : Int) ≤ bars_held T now 300
    · simp [h]
    · simp [h]
  refine ⟨?_, ?_, hpart3⟩
  · intro close
    unfold evaluate_exit
    simp only [hms, Bool.not_true, Bool.false_eq_true, if_false, he]
    have hne : decide (T = T + 24 * 300000) = false := by
      simp only [decide_eq_false_iff_not]
      omega
    have h24 : MAX_HOLD_BARS ≤ bars_held T (T + 7200000) 300 :=
      (bars_held_iff T (T + 7200000)).mpr (by omega)
    rcases hsp : p.stop_price with _ | sp
    · simp [hne, hsp, h24]
    · cases hb : stop_breached p.side sp close
      · simp [hne, hsp, hb, h24]
      · simp [hne, hsp, hb]
  · intro close hnb
    rw [evaluate_exit_no_breach_reduce p ms T (T + 24 * 300000) close hms he hnb]
    rw [if_pos ((bars_held_iff T (T + 24 * 300000)).mpr (by omega))]

/-- Witness for C6: concrete stop-free LONG position at the exact
time-stop bar. -/
theorem c6_witness :
    (let p : Position :=
      { symbol := "BTC/USD", qty := 1, side := "LONG", entry_price := 100,
        entry_ts_ms := some 1000, stop_price := none, trailing_anchor_price := none }
     evaluate_exit p (some 97) (1000 + 24 * 300000) tradable_flat_state 300) =
      { should_exit := true, reason := some "time_stop" } :=
  (c6_time_stop_exact
    { symbol := "BTC/USD", qty := 1, side := "LONG", entry_price := 100,
      entry_ts_ms := some 1000, stop_price := none, trailing_anchor_price := none }
    1000 tradable_flat_state rfl rfl).2.1 97 (fun sp h => by cases h)

/-! ## C4 -/

lemma lookup_filter_out {β : Type} (l : List (String × β)) (s : String) :
    (l.filter (fun p => !(p.1 == s))).lookup s = none := by
  induction l with
  | nil => rfl
  | cons p l ih =>
    rcases p with ⟨k, v⟩
    rw [List.filter_cons]
    by_cases hk : k = s
    · rw [show (!(k == s)) = false by simp [hk]]
      simpa using ih
    · rw [show (!(k == s)) = true by simp [hk]]
      simp only [if_true]
      rw [show ((k, v) :: l.filter (fun p => !(p.1 == s))).lookup s =
            (l.filter (fun p => !(p.1 == s))).lookup s by
          simp [List.lookup, show (s == k) = false by simp [Ne.symm hk]]]
      exact ih

/-- C4: the guarded broker's entry checks fire in the source order —
kill-switch file, halt-orders file, (when arming is required) dry-run
then not-armed, invalid price/size, order-notional cap, then
position-notional cap; whenever any check fires, `open_position` is a
no-op on the inner broker's state regardless of the arguments; and
`realize_and_close` is always passed through to the inner broker
unblocked — on an existing position it still removes the position and
bumps the closed-trade counter. -/
theorem c4_guard_order_and_blocking
    (g : Guardrails) (ra : Bool) (st : BrokerState) (symbol side : String)
    (size entry_price : ℚ) (entry_ts_ms : Int) (sp anc : Option ℚ) :
    (g.kill_switch_present = true →
      block_entry_reason g ra st symbol size entry_price = some "kill_switch") ∧
    (g.kill_switch_present = false → g.halt_orders_present = true →
      block_entry_reason g ra st symbol size entry_price = some "halt_orders") ∧
    (g.kill_switch_present = false → g.halt_orders_present = false →
      ra = true → g.dry_run = true →
      block_entry_reason g ra st symbol size entry_price = some "dry_run") ∧
    (g.kill_switch_present = false → g.halt_orders_present = false →
      ra = true → g.dry_run = false → g.armed = false →
      block_entry_reason g ra st symbol size entry_price = some "not_armed") ∧
    (g.kill_switch_present = false → g.halt_orders_present = false →
      (ra = true → g.dry_run = false ∧ g.armed = true) →
      (entry_price ≤ 0 ∨ size ≤ 0) →
      block_entry_reason g ra st symbol size entry_price = some "bad_inputs") ∧
    (g.kill_switch_present = false → g.halt_orders_present = false →
      (ra = true → g.dry_run = false ∧ g.armed = true) →
      0 < entry_price → 0 < size →
      0 < g.max_order_usd → g.max_order_usd < entry_price * size →
      block_entry_reason g ra st symbol size entry_price = some "max_order_usd") ∧
    (g.kill_switch_present = false → g.halt_orders_present = false →
      (ra = true → g.dry_run = false ∧ g.armed = true) →
      0 < entry_price → 0 < size →
      ¬(0 < g.max_order_usd ∧ g.max_order_usd < entry_price * size) →
      0 < g.max_position_usd →
      g.max_position_usd < entry_price * (tracked_qty st symbol + size) →
      block_entry_reason g ra st symbol size entry_price =
        some "max_position_usd") ∧
    (∀ r, block_entry_reason g ra st symbol size entry_price = some r →
      guarded_open_position g ra st symbol side size entry_price entry_ts_ms sp anc =
        .ok st) ∧
    (∀ (exit_price : ℚ) (reason : String) (exit_ts_ms : Option Int),
      guarded_realize_and_close st symbol exit_price reason exit_ts_ms =
        realize_and_close st symbol exit_price reason exit_ts_ms) ∧
    (∀ (pos : Position) (exit_price : ℚ) (reason : String) (exit_ts_ms : Option Int),
      st.tracked.lookup symbol = some pos →
      ((guarded_realize_and_close st symbol exit_price reason
          exit_ts_ms).2.tracked.lookup symbol = none ∧
       (guarded_realize_and_close st symbol exit_price reason
          exit_ts_ms).2.trades_closed = st.trades_closed + 1)) := by
  refine ⟨?_, ?_, ?_, ?_, ?_, ?_, ?_, ?_, ?_, ?_⟩
  · intro hk
    simp [block_entry_reason, halt_reason, hk]
  · intro hk hh
    simp [block_entry_reason, halt_reason, hk, hh]
  · intro hk hh hra hd
    simp [block_entry_reason, halt_reason, hk, hh, hra, hd]
  · intro hk hh hra hd harm
    simp [block_entry_reason, halt_reason, hk, hh, hra, hd, harm]
  · intro hk hh hra hbad
    cases ra with
    | false => simp [block_entry_reason, halt_reason, hk, hh, hbad]
    | true =>
      obtain ⟨hd, harm⟩ := hra rfl
      simp [block_entry_reason, halt_reason, hk, hh, hd, harm, hbad]
  · intro hk hh hra hpx hsz hcap hover
    have hvalid : ¬(entry_price ≤ 0 ∨ size ≤ 0) := by
      push_neg
      exact ⟨hpx, hsz⟩
    cases ra with
    | false =>
      simp [block_entry_reason, halt_reason, hk, hh, hvalid, hcap, hover]
    | true =>
      obtain ⟨hd, harm⟩ := hra rfl
      simp [block_entry_reason, halt_reason, hk, hh, hd, harm, hvalid, hcap, hover]
  · intro hk hh hra hpx hsz hno hpcap hpover
    have hvalid : ¬(entry_price ≤ 0 ∨ size ≤ 0) := by
      push_neg
      exact ⟨hpx, hsz⟩
    cases ra with
    | false =>
      simp [block_entry_reason, halt_reason, hk, hh, hvalid, hno, hpcap, hpover]
    | true =>
      obtain ⟨hd, harm⟩ := hra rfl
      simp [block_entry_reason, halt_reason, hk, hh, hd, harm, hvalid, hno,
        hpcap, hpover]
  · intro r hr
    simp [guarded_open_position, hr]
  · intro exit_price reason exit_ts_ms
    rfl
  · intro pos exit_price reason exit_ts_ms hpos
    unfold guarded_realize_and_close realize_and_close
    simp only [hpos]
    exact ⟨lookup_filter_out st.tracked symbol, trivial⟩

/-- Witness for C4: a present kill-switch file blocks a concrete entry
on the occupied broker while a close on the same symbol passes through
and succeeds. -/
theorem c4_witness :
    (let g : Guardrails :=
      { kill_switch_present := true, halt_orders_present := false, armed := true,
        dry_run := false, max_order_usd := 0, max_position_usd := 0 }
     block_entry_reason g false occupied_broker "BTC/USD" 1 100 = some "kill_switch" ∧
     guarded_open_position g false occupied_broker "BTC/USD" "LONG" 1 100 2000
       none none = .ok occupied_broker) ∧
    (guarded_realize_and_close occupied_broker "BTC/USD" 120 "manual"
        (some 9000)).2.trades_closed = occupied_broker.trades_closed + 1 := by
  refine ⟨⟨?_, ?_⟩, ?_⟩
  · exact (c4_guard_order_and_blocking
      { kill_switch_present := true, halt_orders_present := false, armed := true,
        dry_run := false, max_order_usd := 0, max_position_usd := 0 }
      false occupied_broker "BTC/USD" "LONG" 1 100 2000 none none).1 rfl
  · refine (c4_guard_order_and_blocking
      { kill_switch_present := true, halt_orders_present := false, armed := true,
        dry_run := false, max_order_usd := 0, max_position_usd := 0 }
      false occupied_broker "BTC/USD" "LONG" 1 100 2000 none none).2.2.2.2.2.2.2.1
      "kill_switch" ?_
    exact (c4_guard_order_and_blocking
      { kill_switch_present := true, halt_orders_present := false, armed := true,
        dry_run := false, max_order_usd := 0, max_position_usd := 0 }
      false occupied_broker "BTC/USD" "LONG" 1 100 2000 none none).1 rfl
  · exact ((c4_guard_order_and_blocking
      { kill_switch_present := true, halt_orders_present := false, armed := true,
        dry_run := false, max_order_usd := 0, max_position_usd := 0 }
      false occupied_broker "BTC/USD" "LONG" 1 100 2000 none none).2.2.2.2.2.2.2.2.2
      sample_long_pos 120 "manual" (some 9000) rfl).2

/-! ## C1 -/

/-- Invariant carried by the ledger writer state: appended timestamps
are strictly increasing, positive, above the seed, below the watermark,
and the watermark never decreases from the seed. -/
def ledger_inv (seed : Option Int) (st : LedgerState) : Prop :=
  List.Chain' (· < ·) st.written ∧
  (∀ t ∈ st.written, 0 < t) ∧
  (∀ w, seed = some w → ∀ t ∈ st.written, w < t) ∧
  (∀ t ∈ st.written, ∃ w', st.last_decision_ts_ms = some w' ∧ t ≤ w') ∧
  (∀ w, seed = some w → ∃ w', st.last_decision_ts_ms = some w' ∧ w ≤ w')

lemma mem_of_mem_getLast? {l : List Int} {a : Int} (h : a ∈ l.getLast?) : a ∈ l := by
  obtain ⟨hne, rfl⟩ := List.mem_getLast?_eq_getLast h
  exact List.getLast_mem hne

lemma ledger_inv_append (seed : Option Int) (wm : Option Int) (written : List Int)
    (ts : Int) (hts : 0 < ts)
    (h : ledger_inv seed ⟨wm, written⟩)
    (hup : ∀ t ∈ written, t < ts) (hseed : ∀ w, seed = some w → w < ts) :
    ledger_inv seed ⟨some ts, written ++ [ts]⟩ := by
  obtain ⟨h1, h2, h3, h4, h5⟩ := h
  refine ⟨?_, ?_, ?_, ?_, ?_⟩
  · rw [List.chain'_append]
    refine ⟨h1, List.chain'_singleton ts, ?_⟩
    intro x hx y hy
    have hy' : ts = y := by simpa using hy
    have := hup x (mem_of_mem_getLast? hx)
    omega
  · intro t ht
    rcases List.mem_append.mp ht with ht' | ht'
    · exact h2 t ht'
    · have : t = ts := by simpa using ht'
      omega
  · intro w0 hw0 t ht
    rcases List.mem_append.mp ht with ht' | ht'
    · exact h3 w0 hw0 t ht'
    · have : t = ts := by simpa using ht'
      have := hseed w0 hw0
      omega
  · intro t ht
    refine ⟨ts, rfl, ?_⟩
    rcases List.mem_append.mp ht with ht' | ht'
    · have := hup t ht'
      omega
    · have : t = ts := by simpa using ht'
      omega
  · intro w0 hw0
    exact ⟨ts, rfl, le_of_lt (hseed w0 hw0)⟩

lemma ledger_inv_step (seed : Option Int) (wm : Option Int) (written : List Int)
    (ts : Int) (h : ledger_inv seed ⟨wm, written⟩) :
    ledger_inv seed (write_decision_once_per_bar ⟨wm, written⟩ ts) := by
  unfold write_decision_once_per_bar
  by_cases hts : ts ≤ 0
  · rw [if_pos hts]
    exact h
  · rw [if_neg hts]
    rcases wm with _ | w
    · show ledger_inv seed ⟨some ts, written ++ [ts]⟩
      refine ledger_inv_append seed none written ts (by omega) h ?_ ?_
      · intro t ht
        obtain ⟨w', hw', -⟩ := h.2.2.2.1 t ht
        exact absurd hw' (by simp)
      · intro w0 hw0
        obtain ⟨w', hw', -⟩ := h.2.2.2.2 w0 hw0
        exact absurd hw' (by simp)
    · show ledger_inv seed
        (if ts ≤ w then (⟨some w, written⟩ : LedgerState) else ⟨some ts, written ++ [ts]⟩)
      by_cases hle : ts ≤ w
      · rw [if_pos hle]
        exact h
      · rw [if_neg hle]
        refine ledger_inv_append seed (some w) written ts (by omega) h ?_ ?_
        · intro t ht
          obtain ⟨w', hw', hle'⟩ := h.2.2.2.1 t ht
          injection hw' with hww
          omega
        · intro w0 hw0
          obtain ⟨w', hw', hle'⟩ := h.2.2.2.2 w0 hw0
          injection hw' with hww
          omega

lemma ledger_inv_init (seed : Option Int) : ledger_inv seed ⟨seed, []⟩ := by
  refine ⟨List.chain'_nil, by simp, by simp, by simp, ?_⟩
  intro w hw
  exact ⟨w, hw, le_refl w⟩

lemma ledger_inv_run (seed : Option Int) (rows : List Int) :
    ledger_inv seed (run_ledger_writer seed rows) := by
  unfold run_ledger_writer
  have key : ∀ (l : List Int) (st : LedgerState), ledger_inv seed st →
      ledger_inv seed (l.foldl write_decision_once_per_bar st) := by
    intro l
    induction l with
    | nil => intro st h; exact h
    | cons r rs ih =>
      intro st h
      exact ih _ (ledger_inv_step seed st.last_decision_ts_ms st.written r h)
  exact key rows ⟨seed, []⟩ (ledger_inv_init seed)

lemma foldl_some_eq (l : List Int) : ∀ a : Int,
    l.foldl (fun _ x => some x) (some a) = some (l.foldl (fun _ x => x) a) := by
  induction l with
  | nil => intro a; rfl
  | cons x xs ih => intro a; exact ih x

lemma foldl_last_eq_max (l : List Int) : ∀ a : Int, (a :: l).Pairwise (· ≤ ·) →
    l.foldl (fun _ x => x) a = l.foldl max a := by
  induction l with
  | nil => intro a _; rfl
  | cons x xs ih =>
    intro a h
    have hax : a ≤ x := (List.pairwise_cons.mp h).1 x (List.mem_cons_self x xs)
    have h' : (x :: xs).Pairwise (· ≤ ·) := (List.pairwise_cons.mp h).2
    show xs.foldl (fun _ y => y) x = xs.foldl max (max a x)
    rw [max_eq_right hax]
    exact ih x h'

lemma read_last_eq_filter (rows : List Int) : ∀ acc : Option Int,
    rows.foldl (fun last ts_ms => if 0 < ts_ms then some ts_ms else last) acc =
      (rows.filter (fun t => decide (0 < t))).foldl (fun _ t => some t) acc := by
  induction rows with
  | nil => intro acc; rfl
  | cons r rs ih =>
    intro acc
    rw [List.foldl_cons, List.filter_cons]
    by_cases hr : 0 < r
    · rw [if_pos hr, show (decide (0 < r)) = true by simp [hr]]
      simp only [if_true, List.foldl_cons]
      exact ih (some r)
    · rw [if_neg hr, show (decide (0 < r)) = false by simp [hr]]
      simp only [Bool.false_eq_true, if_false]
      exact ih acc

lemma read_last_eq_spec_max (rows : List Int)
    (hs : (rows.filter (fun t => decide (0 < t))).Pairwise (· ≤ ·)) :
    read_last_ts_ms_from_decisions_csv rows = spec_max_valid_ts_ms rows := by
  unfold read_last_ts_ms_from_decisions_csv spec_max_valid_ts_ms
  rw [read_last_eq_filter rows none]
  rcases hfl : rows.filter (fun t => decide (0 < t)) with _ | ⟨t, ts⟩
  · rfl
  · rw [hfl] at hs
    simp only [List.foldl_cons]
    rw [foldl_some_eq ts t, foldl_last_eq_max ts t hs]

/-- C1 counterexample: an existing decisions file whose parsed `ts_ms`
column reads 300 then 100 seeds the watermark with 100 — the LAST valid
value — not the claimed MAXIMUM 300. -/
theorem c1_counterexample :
    read_last_ts_ms_from_decisions_csv [300, 100] = some 100 ∧
    spec_max_valid_ts_ms [300, 100] = some 300 ∧
    read_last_ts_ms_from_decisions_csv [300, 100] ≠
      spec_max_valid_ts_ms [300, 100] := by
  refine ⟨rfl, rfl, ?_⟩
  decide

/-- C1 (amended): a row is appended only when its ts_ms is positive and
strictly greater than the current watermark, so the appended ts_ms are
strictly increasing (no two equal) and all above any seed; on process
start the watermark is seeded with the LAST valid ts_ms of the existing
decisions file — equal to the maximum whenever the file's valid ts_ms
are in non-decreasing order, as in any file this writer produced — and
a restart seeded that way never re-writes a ts_ms at or below the
last-seen valid one. -/
theorem c1_ledger_strictly_increasing_and_seed
    (seed : Option Int) (rows file_rows : List Int)
    (hs : (file_rows.filter (fun t => decide (0 < t))).Pairwise (· ≤ ·)) :
    List.Chain' (· < ·) (run_ledger_writer seed rows).written ∧
    (∀ t ∈ (run_ledger_writer seed rows).written, 0 < t) ∧
    (∀ w, seed = some w → ∀ t ∈ (run_ledger_writer seed rows).written, w < t) ∧
    read_last_ts_ms_from_decisions_csv file_rows = spec_max_valid_ts_ms file_rows ∧
    (∀ w, read_last_ts_ms_from_decisions_csv file_rows = some w →
      ∀ t ∈ (run_ledger_writer (read_last_ts_ms_from_decisions_csv file_rows)
          rows).written, w < t) := by
  have hinv := ledger_inv_run seed rows
  have hinv2 := ledger_inv_run (read_last_ts_ms_from_decisions_csv file_rows) rows
  exact ⟨hinv.1, hinv.2.1, hinv.2.2.1, read_last_eq_spec_max file_rows hs,
    fun w hw t ht => hinv2.2.2.1 w hw t ht⟩

/-- Witness for C1: a sorted existing file and a concrete row stream. -/
theorem c1_witness :
    ([100, 300].filter (fun t : Int => decide (0 < t))).Pairwise (· ≤ ·) ∧
    (List.Chain' (· < ·) (run_ledger_writer (some 100) [200, 400, 400]).written ∧
     (∀ t ∈ (run_ledger_writer (some 100) [200, 400, 400]).written, 0 < t) ∧
     (∀ w, (some 100 : Option Int) = some w →
       ∀ t ∈ (run_ledger_writer (some 100) [200, 400, 400]).written, w < t) ∧
     read_last_ts_ms_from_decisions_csv [100, 300] =
       spec_max_valid_ts_ms [100, 300] ∧
     (∀ w, read_last_ts_ms_from_decisions_csv [100, 300] = some w →
       ∀ t ∈ (run_ledger_writer (read_last_ts_ms_from_decisions_csv [100, 300])
           [200, 400, 400]).written, w < t)) :=
  ⟨by decide,
   c1_ledger_strictly_increasing_and_seed (some 100) [200, 400, 400] [100, 300]
     (by decide)⟩

/-! ## C9 -/

lemma lookup_isSome_iff {β : Type} (m : List (Int × β)) (t : Int) :
    (m.lookup t).isSome = true ↔ t ∈ m.map Prod.fst := by
  induction m with
  | nil => simp
  | cons p l ih =>
    rcases p with ⟨k, v⟩
    by_cases hk : t = k
    · subst hk
      simp [List.lookup]
    · rw [show ((k, v) :: l).lookup t = l.lookup t by
        simp [List.lookup, show (t == k) = false by simp [hk]]]
      simp only [List.map_cons, List.mem_cons]
      rw [ih]
      constructor
      · exact fun h => Or.inr h
      · rintro (h | h)
        · exact absurd h hk
        · exact h

lemma flat_lookup_isSome (m : List (Int × DecisionRow)) (t : Int)
    (h : flat_lookup m t = true) : (m.lookup t).isSome = true := by
  unfold flat_lookup at h
  rcases hl : m.lookup t with _ | r
  · rw [hl] at h
    cases h
  · simp [hl]

lemma mem_common_ts (live bt : List (Int × DecisionRow)) (t : Int) :
    t ∈ common_ts live bt ↔
      t ∈ ledger_keys live ∧ (bt.lookup t).isSome = true := by
  unfold common_ts
  rw [(List.perm_insertionSort _ _).mem_iff, List.mem_dedup, List.mem_filter]

lemma common_ts_sorted (live bt : List (Int × DecisionRow)) :
    (common_ts live bt).Pairwise (· ≤ ·) :=
  List.sorted_insertionSort _ _

lemma mutual_flat_pred_iff (live bt : List (Int × DecisionRow)) (lo hi t : Int) :
    mutual_flat_pred live bt lo hi t = true ↔ mutual_flat_at live bt lo hi t := by
  unfold mutual_flat_pred mutual_flat_at
  simp [Bool.and_eq_true, decide_eq_true_eq, and_assoc]

lemma find?_sorted_min (p : Int → Bool) :
    ∀ (l : List Int), l.Pairwise (· ≤ ·) → ∀ a, l.find? p = some a →
      ∀ b ∈ l, p b = true → a ≤ b := by
  intro l
  induction l with
  | nil =>
    intro _ a ha
    simp at ha
  | cons x xs ih =>
    intro hp a ha b hb hpb
    by_cases hx : p x = true
    · rw [List.find?_cons_of_pos _ hx] at ha
      injection ha with ha'
      subst ha'
      rcases List.mem_cons.mp hb with rfl | hb'
      · exact le_refl _
      · exact (List.pairwise_cons.mp hp).1 b hb'
    · rw [List.find?_cons_of_neg _ (by simpa using hx)] at ha
      rcases List.mem_cons.mp hb with rfl | hb'
      · exact absurd hpb hx
      · exact ih (List.pairwise_cons.mp hp).2 a ha b hb' hpb

lemma missing_bad_mem (present other : List (Int × DecisionRow)) (t : Int)
    (r : DecisionRow) (hp : present.lookup t = some r) (ho : other.lookup t = none)
    (hn : is_noop_decision r = false) : t ∈ missing_bad present other := by
  unfold missing_bad
  rw [List.mem_filter]
  refine ⟨?_, by simp [hp, hn]⟩
  rw [List.mem_filter]
  exact ⟨(lookup_isSome_iff present t).1 (by simp [hp]), by simp [ho]⟩

lemma missing_bad_nil (present other : List (Int × DecisionRow))
    (h : ∀ t r, present.lookup t = some r → other.lookup t = none →
      is_noop_decision r = true) : missing_bad present other = [] := by
  rw [List.eq_nil_iff_forall_not_mem]
  intro t ht
  unfold missing_bad at ht
  rw [List.mem_filter] at ht
  obtain ⟨ht1, ht2⟩ := ht
  rw [List.mem_filter] at ht1
  obtain ⟨-, hnone⟩ := ht1
  have hnone' : other.lookup t = none := by
    simpa [Option.isNone_iff_eq_none] using hnone
  rcases hp : present.lookup t with _ | r
  · rw [hp] at ht2
    simp at ht2
  · rw [hp] at ht2
    simp only [Bool.not_eq_true'] at ht2
    rw [h t r hp hnone'] at ht2
    cases ht2

lemma compare_after_sync_fails_of_missing (live bt : List (Int × DecisionRow))
    (h : missing_bad bt live ≠ [] ∨ missing_bad live bt ≠ []) :
    compare_after_sync live bt = .fail_missing ∨
      compare_after_sync live bt = .fail_no_common := by
  cases hc : (common_ts live bt).isEmpty
  · left
    have hcond : (!(missing_bad bt live).isEmpty || !(missing_bad live bt).isEmpty)
        = true := by
      rcases h with h | h <;> simp [List.isEmpty_iff, h]
    simp [compare_after_sync, hc, hcond]
  · right
    simp [compare_after_sync, hc]

lemma compare_after_sync_ne_missing (live bt : List (Int × DecisionRow))
    (h1 : missing_bad bt live = []) (h2 : missing_bad live bt = []) :
    compare_after_sync live bt ≠ .fail_missing := by
  unfold compare_after_sync
  cases hc : (common_ts live bt).isEmpty
  · simp only [hc, Bool.false_eq_true, if_false, h1, h2, List.isEmpty_nil,
      Bool.not_true, Bool.or_self]
    rcases hf : (common_ts live bt).find? (fun t =>
        match live.lookup t, bt.lookup t with
        | some lr, some br => !(decide (decision_sig t lr = decision_sig t br))
        | _, _ => false) with _ | t <;> simp [hf]
  · simp [hc]

/-- C9: with a non-empty overlap window, (a) whenever some common
timestamp inside the window has both ledgers flat, the verifier's sync
point is exactly the first (least) such timestamp; and (b) at or after
the sync point, a timestamp present in only one ledger whose present
row is NOT a true no-op makes the comparison fail, while if every
one-sided timestamp carries a true no-op row the comparison never fails
for missing timestamps — one-sided no-ops are tolerated. -/
theorem c9_sync_point_and_one_sided_tolerance
    (live bt : List (Int × DecisionRow)) (lo hi : Int) :
    ((∃ t, mutual_flat_at live bt lo hi t) →
      ∃ t0, find_first_mutual_flat_ts live bt lo hi = some t0 ∧
        mutual_flat_at live bt lo hi t0 ∧
        ∀ t, mutual_flat_at live bt lo hi t → t0 ≤ t) ∧
    (∀ t r, (restrict_ge bt (sync_ts live bt lo hi)).lookup t = some r →
      (restrict_ge live (sync_ts live bt lo hi)).lookup t = none →
      is_noop_decision r = false →
      (compare_decisions_core live bt lo hi = .fail_missing ∨
       compare_decisions_core live bt lo hi = .fail_no_common)) ∧
    (∀ t r, (restrict_ge live (sync_ts live bt lo hi)).lookup t = some r →
      (restrict_ge bt (sync_ts live bt lo hi)).lookup t = none →
      is_noop_decision r = false →
      (compare_decisions_core live bt lo hi = .fail_missing ∨
       compare_decisions_core live bt lo hi = .fail_no_common)) ∧
    ((∀ t r, (restrict_ge bt (sync_ts live bt lo hi)).lookup t = some r →
        (restrict_ge live (sync_ts live bt lo hi)).lookup t = none →
        is_noop_decision r = true) →
     (∀ t r, (restrict_ge live (sync_ts live bt lo hi)).lookup t = some r →
        (restrict_ge bt (sync_ts live bt lo hi)).lookup t = none →
        is_noop_decision r = true) →
     compare_decisions_core live bt lo hi ≠ .fail_missing) := by
  refine ⟨?_, ?_, ?_, ?_⟩
  · rintro ⟨t, ht⟩
    have htc : t ∈ common_ts live bt :=
      (mem_common_ts live bt t).2
        ⟨(lookup_isSome_iff live t).1 (flat_lookup_isSome live t ht.2.2.1),
         flat_lookup_isSome bt t ht.2.2.2⟩
    have hsome : (find_first_mutual_flat_ts live bt lo hi).isSome = true := by
      unfold find_first_mutual_flat_ts
      rw [List.find?_isSome]
      exact ⟨t, htc, (mutual_flat_pred_iff live bt lo hi t).2 ht⟩
    obtain ⟨t0, ht0⟩ := Option.isSome_iff_exists.mp hsome
    refine ⟨t0, ht0,
      (mutual_flat_pred_iff live bt lo hi t0).1 (List.find?_some ht0), ?_⟩
    intro b hb
    exact find?_sorted_min _ _ (common_ts_sorted live bt) t0 ht0 b
      ((mem_common_ts live bt b).2
        ⟨(lookup_isSome_iff live b).1 (flat_lookup_isSome live b hb.2.2.1),
         flat_lookup_isSome bt b hb.2.2.2⟩)
      ((mutual_flat_pred_iff live bt lo hi b).2 hb)
  · intro t r hp ho hn
    have hmem := missing_bad_mem _ _ t r hp ho hn
    exact compare_after_sync_fails_of_missing _ _ (.inl (List.ne_nil_of_mem hmem))
  · intro t r hp ho hn
    have hmem := missing_bad_mem _ _ t r hp ho hn
    exact compare_after_sync_fails_of_missing _ _ (.inr (List.ne_nil_of_mem hmem))
  · intro hB hL
    exact compare_after_sync_ne_missing _ _ (missing_bad_nil _ _ hB)
      (missing_bad_nil _ _ hL)

/-- A decision row that is a true no-op. -/
def noop_row : DecisionRow :=
  { entry_should_enter := false, entry_side := "", exit_should_exit := false,
    exit_reason := "", position_side := "", has_stop := false, has_anchor := false }

/-- A decision row carrying an open LONG position. -/
def long_row : DecisionRow :=
  { noop_row with position_side := "LONG", has_stop := true }

/-- Concrete LIVE ledger for the C9 witness: warmup position at 100,
flat afterwards. -/
def wit_live : List (Int × DecisionRow) :=
  [(100, long_row), (200, noop_row), (300, noop_row)]

/-- Concrete BT ledger for the C9 witness. -/
def wit_bt : List (Int × DecisionRow) :=
  [(200, noop_row), (300, noop_row), (400, noop_row)]

/-- Witness for C9: the sync point of the concrete ledger pair is 200,
the first mutual-flat common timestamp. -/
theorem c9_witness :
    (∃ t, mutual_flat_at wit_live wit_bt 200 400 t) ∧
    (∃ t0, find_first_mutual_flat_ts wit_live wit_bt 200 400 = some t0 ∧
      mutual_flat_at wit_live wit_bt 200 400 t0 ∧
      ∀ t, mutual_flat_at wit_live wit_bt 200 400 t → t0 ≤ t) :=
  ⟨⟨200, by decide⟩,
   (c9_sync_point_and_one_sided_tolerance wit_live wit_bt 200 400).1 ⟨200, by decide⟩⟩

end Trade
